import Mathlib

/-!
Verification of the settings-gateway core: a shallow embedding of
`src/lib/settings/Settings.ts` and `src/lib/structures/Provider.ts`
(the `parseUpdateInput` helper), together with spec-modelled versions of
the collaborators that are not part of the visible slice
(`SettingsFolder`, the `SettingsExistenceStatus` enum, the Gateway event
bus, the `RequestHandler` batching layer, and the `@klasa/utils` object
helpers `mergeObjects` / `makeObject`).

Values are modelled as a JSON-like tree; a settings folder is modelled,
following the spec's own data model ("mapping from schema path to current
value"), as an association list from schema path to value.  All effects
(storage calls, event emissions) are made explicit as a log.
-/

namespace SettingsGateway

/-- JSON-like values: the leaves stored in rows and folders, and nested
plain objects (association lists preserving insertion order, as JavaScript
objects do). -/
inductive JsonValue where
  | str : String → JsonValue
  | int : Int → JsonValue
  | null : JsonValue
  | obj : List (String × JsonValue) → JsonValue

/-- A plain keyed object (`KeyedObject` / `ReadonlyAnyObject` in the source):
an association list from key to value. -/
abbrev KeyedObject := List (String × JsonValue)

/-- Whether a value is a plain object (the `isObject` test of `@klasa/utils`,
which guards deep-merging). -/
def JsonValue.isObj : JsonValue → Bool
  | JsonValue.obj _ => true
  | _ => false

/-- Property lookup `o[k]` on a plain object. -/
def lookupKey (l : KeyedObject) (k : String) : Option JsonValue :=
  match l.find? (fun e => e.1 == k) with
  | some e => some e.2
  | none => none

/-- Property assignment `o[k] = v` on a plain object: overwrites in place if
the key is present, appends otherwise (JavaScript insertion-order
semantics). -/
def setKey (l : KeyedObject) (k : String) (v : JsonValue) : KeyedObject :=
  if l.any (fun e => e.1 == k) then
    l.map (fun e => if e.1 == k then (e.1, v) else e)
  else
    l ++ [(k, v)]

/-- Modelled from the spec: `mergeObjects(target, source)` from
`@klasa/utils` (not in the visible slice).  Deep merge of `source` into
`target`: for each key of `source` in order, if both sides hold plain
objects they are merged recursively, otherwise the source value overwrites
the target's ("deep merge, not replacement of parent objects"). -/
def mergeFields : KeyedObject → KeyedObject → KeyedObject
  | target, [] => target
  | target, (k, JsonValue.obj sf) :: rest =>
      (match lookupKey target k with
       | some (JsonValue.obj tf) =>
           mergeFields (setKey target k (JsonValue.obj (mergeFields tf sf))) rest
       | _ => mergeFields (setKey target k (JsonValue.obj sf)) rest)
  | target, (k, sv) :: rest => mergeFields (setKey target k sv) rest
termination_by _t s => sizeOf s
decreasing_by
  all_goals simp_wf
  all_goals omega

/-- Builds the nested spine of `makeObject` below one top-level key: the
remaining path segments each wrap the value in a one-key object. -/
def makeNested : List String → JsonValue → JsonValue
  | [], v => v
  | k :: ks, v => JsonValue.obj [(k, makeNested ks v)]

/-- Splits a character list on `.`, accumulating the current segment in
reverse; the structural worker behind `splitPath`. -/
def splitSegsAux : List Char → List Char → List String
  | [], acc => [String.mk acc.reverse]
  | c :: cs, acc =>
      if c = '.' then String.mk acc.reverse :: splitSegsAux cs []
      else splitSegsAux cs (c :: acc)

/-- `path.split('.')`: the dotted schema path cut into its segments. -/
def splitPath (path : String) : List String :=
  splitSegsAux path.toList []

/-- Modelled from the spec: `makeObject(path, value)` from `@klasa/utils`
(not in the visible slice).  Splits the dotted path and builds the nested
one-branch object holding `value` at that path. -/
def makeObject (path : String) (value : JsonValue) : KeyedObject :=
  match splitPath path with
  | [] => []
  | k :: ks => [(k, makeNested ks value)]

/-- A schema entry: a path-addressable leaf of the schema tree.  Only the
`path` field is consumed by the code under verification. -/
structure SchemaEntry where
  path : String

/-- One change record of a `SettingsUpdateResults` sequence:
`{entry, previous, next}`. -/
structure SettingsUpdateResult where
  entry : SchemaEntry
  previous : JsonValue
  next : JsonValue

/-- The dual-shaped input of `Provider#parseUpdateInput`: either a plain
path→value mapping, or an array of change records (the source discriminates
with `Array.isArray`). -/
inductive UpdateInput where
  | plain : KeyedObject → UpdateInput
  | results : List SettingsUpdateResult → UpdateInput

/-- Embedding of `Provider#parseUpdateInput` (src/unnamed/part_000, the
Provider class): a non-array input is returned as-is; an array of change
records is folded into one object, merging `makeObject(change.entry.path,
change.next)` for each change in order. -/
def Provider.parseUpdateInput : UpdateInput → KeyedObject
  | UpdateInput.plain changes => changes
  | UpdateInput.results changes =>
      changes.foldl
        (fun updated change => mergeFields updated (makeObject change.entry.path change.next))
        []

/-- Modelled from the spec: the `SettingsExistenceStatus` enum exported by
`SettingsFolder.ts` (not in the visible slice): a genuine three-variant
tagged type, never the null literal. -/
inductive SettingsExistenceStatus where
  | Unsynchronized
  | Exists
  | NotExists
deriving DecidableEq

/-- The static configuration a `Settings` reaches through its `gateway`
back-reference: the table name, the bound schema (modelled, following the
spec's data model, as path → default value), and whether the Gateway's
provider is available (`provider !== null`). -/
structure Gateway where
  name : String
  schema : List (String × JsonValue)
  hasProvider : Bool

/-- Modelled from the spec: `SettingsFolder#_init` — recursively fills every
schema path with its default value; in the path→value model the initialized
folder is exactly the schema's path→default mapping. -/
def folderInit (schema : List (String × JsonValue)) : List (String × JsonValue) :=
  schema

/-- Modelled from the spec: `SettingsFolder#_patch(data)` — merges an
incoming plain object into the folder by path, overwriting only the leaves
present in `data`; unspecified paths retain their current values, and keys
outside the schema shape are ignored (the folder's shape always matches the
schema's shape exactly). -/
def folderPatch (values data : List (String × JsonValue)) : List (String × JsonValue) :=
  values.map (fun e =>
    match lookupKey data e.1 with
    | some w => (e.1, w)
    | none => e)

/-- Modelled from the spec: `SettingsFolder#toJSON` — a plain structural
snapshot of the current path→value mapping. -/
def folderToJSON (values : List (String × JsonValue)) : List (String × JsonValue) :=
  values

/-- Embedding of the `Settings` class (src/lib/settings/Settings.ts): a
settings folder (`values`) specialized with `gateway`, `target`, `id` and
the synchronization state machine.  The opaque `target` is modelled as a
string; it is never interpreted. -/
structure Settings where
  gateway : Gateway
  target : String
  id : String
  values : List (String × JsonValue)
  existenceStatus : SettingsExistenceStatus

/-- The observable effects of a `Settings` operation, in program order:
a `requestHandler.push(id)` fetch, a `provider.delete(table, id)` call, and
the two host events `settingsSync` / `settingsDelete` with the entity as
payload at emission time. -/
inductive Effect where
  | push (id : String)
  | providerDelete (table : String) (id : String)
  | settingsSync (payload : Settings)
  | settingsDelete (payload : Settings)

/-- Embedding of the `Settings` constructor: stores `gateway`, `target`,
`id`, sets `existenceStatus` to `Unsynchronized` and runs
`this._init(this, this.schema)` (the schema passed to `super` is
`gateway.schema`). -/
def Settings.construct (gateway : Gateway) (target : String) (id : String) : Settings :=
  { gateway := gateway
    target := target
    id := id
    values := folderInit gateway.schema
    existenceStatus := SettingsExistenceStatus.Unsynchronized }

/-- Embedding of the guard expression `this.existenceStatus !== null` in
`Settings#sync`: the status is a non-nullable enum value, so the strict
inequality against the null literal holds for every status. -/
def statusNeNull (_s : SettingsExistenceStatus) : Bool :=
  true

/-- Embedding of `Settings#sync(force)`.  The environment `fetch` gives the
row-or-null result that `this.gateway.requestHandler.push(this.id)`
resolves with.  Returns the updated entity (`this`) and the effect log:
early return when `!force && this.existenceStatus !== null`; otherwise one
`push`, then on a row: status ← `Exists`, `_patch(data)`, emit
`settingsSync` with the mutated entity; on no row: status ← `NotExists`. -/
def Settings.sync (fetch : String → Option KeyedObject) (s : Settings) (force : Bool) :
    Settings × List Effect :=
  if !force && statusNeNull s.existenceStatus then
    (s, [])
  else
    match fetch s.id with
    | some data =>
        let s1 : Settings :=
          { s with
            existenceStatus := SettingsExistenceStatus.Exists
            values := folderPatch s.values data }
        (s1, [Effect.push s.id, Effect.settingsSync s1])
    | none =>
        ({ s with existenceStatus := SettingsExistenceStatus.NotExists },
         [Effect.push s.id])

/-- `Settings#sync()` with the defaulted argument
`force = this.existenceStatus === SettingsExistenceStatus.Unsynchronized`. -/
def Settings.syncDefault (fetch : String → Option KeyedObject) (s : Settings) :
    Settings × List Effect :=
  s.sync fetch (decide (s.existenceStatus = SettingsExistenceStatus.Unsynchronized))

/-- Result of an asynchronous operation that may throw after having already
mutated shared state: either a normal result, or a propagated error message
together with the state and effects at the moment of the throw. -/
inductive Outcome (α : Type) where
  | ok (value : α)
  | thrown (msg : String) (value : α)

/-- Embedding of `Settings#destroy()`: first `await this.sync()` (defaulted
`force`); if the resolved status is `Exists`, a null provider throws (the
sync's mutations and effects persist), otherwise the code runs, in order,
`provider.delete(this.gateway.name, this.id)`, emits `settingsDelete` with
the entity as it is at that moment, resets the folder with
`this._init(this, this.schema)`, and sets status ← `NotExists`; in every
non-throwing case `this` is returned. -/
def Settings.destroy (fetch : String → Option KeyedObject) (s : Settings) :
    Outcome (Settings × List Effect) :=
  let r := s.syncDefault fetch
  if r.1.existenceStatus = SettingsExistenceStatus.Exists then
    if r.1.gateway.hasProvider then
      Outcome.ok
        ({ r.1 with
           values := folderInit r.1.gateway.schema
           existenceStatus := SettingsExistenceStatus.NotExists },
         r.2 ++ [Effect.providerDelete r.1.gateway.name r.1.id, Effect.settingsDelete r.1])
    else
      Outcome.thrown "The provider was not available during the destroy operation." r
  else
    Outcome.ok r

/-- Embedding of `Settings#clone()`: construct a new `Settings` with the
same `gateway`, `target` and `id`, then apply `_patch(this.toJSON())` onto
it. -/
def Settings.clone (s : Settings) : Settings :=
  let c := Settings.construct s.gateway s.target s.id
  { c with values := folderPatch c.values (folderToJSON s.values) }

/-- Mutating a freshly made clone: the pair carries the original alongside
the mutated copy.  In this pure-value embedding the original is a distinct
immutable value, which makes the structural independence of the copy
explicit. -/
def mutateClone (s : Settings) (data : KeyedObject) : Settings × Settings :=
  (s, { s.clone with values := folderPatch s.clone.values data })

/-- One public operation of the `Settings` state machine: `sync` with an
explicit or defaulted `force`, or `destroy`. -/
inductive SettingsOp where
  | sync (force : Option Bool)
  | destroy

/-- The entity state after running one operation to completion (for a
throwing `destroy`, the state at the moment the error propagates). -/
def applyOp (fetch : String → Option KeyedObject) (s : Settings) : SettingsOp → Settings
  | SettingsOp.sync none => (s.syncDefault fetch).1
  | SettingsOp.sync (some f) => (s.sync fetch f).1
  | SettingsOp.destroy =>
      match s.destroy fetch with
      | Outcome.ok r => r.1
      | Outcome.thrown _ r => r.1

/-- The entity state after a sequence of operations. -/
def applyOps (fetch : String → Option KeyedObject) (s : Settings) (ops : List SettingsOp) :
    Settings :=
  ops.foldl (applyOp fetch) s

/-- Modelled from the spec: the `RequestHandler` batching layer (not in the
visible slice), as the explicit scheduler of the design notes — a pending
queue keyed by id, each entry holding the waiters that joined it, flushed
by one bulk fetch per dispatch. -/
structure RequestHandler where
  pending : List (String × List Nat)

/-- Modelled from the spec: `RequestHandler#push(id)` before the batch is
dispatched — a waiter for an id already pending joins that id's entry
(no new storage work is scheduled); otherwise a new entry is queued. -/
def RequestHandler.push (rh : RequestHandler) (id : String) (w : Nat) : RequestHandler :=
  if rh.pending.any (fun e => e.1 == id) then
    { pending := rh.pending.map (fun e => if e.1 == id then (e.1, e.2 ++ [w]) else e) }
  else
    { pending := rh.pending ++ [(id, [w])] }

/-- The ids of the single `Provider.getAll` call the next dispatch will
issue. -/
def RequestHandler.batchIds (rh : RequestHandler) : List String :=
  rh.pending.map (fun e => e.1)

/-- All waiters currently queued in the batch. -/
def RequestHandler.allWaiters (rh : RequestHandler) : List Nat :=
  rh.pending.flatMap (fun e => e.2)

/-- The outcome of the batch's one `getAll` round trip: a backend failure,
or the returned rows keyed by id. -/
abbrev BatchResult := Except String (String → Option KeyedObject)

/-- What a waiter for `id` resolves with: the batch's failure, or its own
row extracted from the batch result (absent if its id was not returned). -/
def dbLookup (db : BatchResult) (id : String) : Except String (Option KeyedObject) :=
  match db with
  | Except.error msg => Except.error msg
  | Except.ok rows => Except.ok (rows id)

/-- Modelled from the spec: dispatching the batch — one `getAll(batchIds)`
storage call whose outcome `db` settles every queued waiter with the result
for its own id. -/
def RequestHandler.dispatch (rh : RequestHandler) (db : BatchResult) :
    List (Nat × Except String (Option KeyedObject)) :=
  rh.pending.flatMap (fun e => e.2.map (fun w => (w, dbLookup db e.1)))

/-- The settlement a given waiter receives from the dispatch. -/
def RequestHandler.resultOf (rh : RequestHandler) (db : BatchResult) (w : Nat) :
    Option (Except String (Option KeyedObject)) :=
  match (rh.dispatch db).find? (fun p => p.1 == w) with
  | some p => some p.2
  | none => none

/-! Concrete instances used by the witnesses. -/

/-- A concrete gateway: table `guilds`, one schema entry `prefix` with
default `"!"`, provider available. -/
def gProv : Gateway :=
  { name := "guilds", schema := [("prefix", JsonValue.str "!")], hasProvider := true }

/-- The same gateway with its provider unavailable (`provider === null`). -/
def gNoProv : Gateway :=
  { gProv with hasProvider := false }

/-- A storage environment holding a row `{prefix: "?"}` for id `"42"` and
nothing else. -/
def fetch42 : String → Option KeyedObject :=
  fun i => if i = "42" then some [("prefix", JsonValue.str "?")] else none

/-- A storage environment holding no rows at all. -/
def fetchEmpty : String → Option KeyedObject :=
  fun _ => none

/-- A fresh entity for id `"42"` on the provider-backed gateway. -/
def s42 : Settings :=
  Settings.construct gProv "guild-object" "42"

/-- A fresh entity for id `"42"` on the gateway whose provider is null. -/
def s42n : Settings :=
  Settings.construct gNoProv "guild-object" "42"

/-- A concrete successful batch result holding one row for id `"a"`. -/
def dbOk : BatchResult :=
  Except.ok (fun i => if i = "a" then some [("x", JsonValue.int 5)] else none)

/-! Helper lemmas about `sync`. -/

/-- With `force = false` the guard `!force && this.existenceStatus !== null`
is always taken, because the enum is never the null literal: the call
returns `this` immediately with no effects. -/
theorem sync_force_false_eq (fetch : String → Option KeyedObject) (s : Settings) :
    s.sync fetch false = (s, []) :=
  rfl

/-- `sync` never changes `gateway`, `target` or `id`. -/
theorem sync_preserves_static (fetch : String → Option KeyedObject) (s : Settings) (f : Bool) :
    (s.sync fetch f).1.gateway = s.gateway ∧ (s.sync fetch f).1.id = s.id ∧
      (s.sync fetch f).1.target = s.target := by
  unfold Settings.sync
  split
  · exact ⟨rfl, rfl, rfl⟩
  · cases fetch s.id <;> exact ⟨rfl, rfl, rfl⟩

/-- The status after a `sync` is either unchanged, `Exists`, or
`NotExists`. -/
theorem sync_status_cases (fetch : String → Option KeyedObject) (s : Settings) (f : Bool) :
    (s.sync fetch f).1.existenceStatus = s.existenceStatus ∨
      (s.sync fetch f).1.existenceStatus = SettingsExistenceStatus.Exists ∨
      (s.sync fetch f).1.existenceStatus = SettingsExistenceStatus.NotExists := by
  unfold Settings.sync
  split
  · exact Or.inl rfl
  · cases fetch s.id
    · exact Or.inr (Or.inr rfl)
    · exact Or.inr (Or.inl rfl)

/-- A forced `sync` on a row-bearing id: fetch, status ← `Exists`, patch,
emit `settingsSync` with the mutated entity. -/
theorem sync_force_some (fetch : String → Option KeyedObject) (s : Settings) (row : KeyedObject)
    (h : fetch s.id = some row) :
    s.sync fetch true =
      ({ s with existenceStatus := SettingsExistenceStatus.Exists,
                values := folderPatch s.values row },
       [Effect.push s.id,
        Effect.settingsSync
          { s with existenceStatus := SettingsExistenceStatus.Exists,
                   values := folderPatch s.values row }]) := by
  unfold Settings.sync
  rw [h]
  rfl

/-- A forced `sync` on an absent id: fetch, status ← `NotExists`, values
untouched. -/
theorem sync_force_none (fetch : String → Option KeyedObject) (s : Settings)
    (h : fetch s.id = none) :
    s.sync fetch true =
      ({ s with existenceStatus := SettingsExistenceStatus.NotExists },
       [Effect.push s.id]) := by
  unfold Settings.sync
  rw [h]
  rfl

/-- A forced `sync` always resolves the status to `Exists` or
`NotExists`. -/
theorem sync_force_true_status (fetch : String → Option KeyedObject) (s : Settings) :
    (s.sync fetch true).1.existenceStatus = SettingsExistenceStatus.Exists ∨
      (s.sync fetch true).1.existenceStatus = SettingsExistenceStatus.NotExists := by
  unfold Settings.sync
  cases fetch s.id
  · exact Or.inr rfl
  · exact Or.inl rfl

/-- On an `Unsynchronized` entity the defaulted `force` is true. -/
theorem syncDefault_unsync (fetch : String → Option KeyedObject) (s : Settings)
    (hs : s.existenceStatus = SettingsExistenceStatus.Unsynchronized) :
    s.syncDefault fetch = s.sync fetch true := by
  unfold Settings.syncDefault
  rw [decide_eq_true hs]

/-- On an already-resolved entity the defaulted `force` is false, and the
call is an effect-free no-op. -/
theorem syncDefault_resolved_eq (fetch : String → Option KeyedObject) (s : Settings)
    (hs : s.existenceStatus ≠ SettingsExistenceStatus.Unsynchronized) :
    s.syncDefault fetch = (s, []) := by
  unfold Settings.syncDefault
  rw [decide_eq_false hs]
  exact sync_force_false_eq fetch s

/-- After `sync()` with the defaulted `force`, the status is resolved:
never `Unsynchronized`. -/
theorem syncDefault_status_resolved (fetch : String → Option KeyedObject) (s : Settings) :
    (s.syncDefault fetch).1.existenceStatus ≠ SettingsExistenceStatus.Unsynchronized := by
  by_cases hs : s.existenceStatus = SettingsExistenceStatus.Unsynchronized
  · rw [syncDefault_unsync fetch s hs]
    rcases sync_force_true_status fetch s with h | h <;> simp [h]
  · rw [syncDefault_resolved_eq fetch s hs]
    exact hs

/-- A `sync` emits no provider deletes and no delete events: its effect log
is a `push` and possibly a `settingsSync` emission. -/
theorem sync_effects_no_delete (fetch : String → Option KeyedObject) (s : Settings) (f : Bool) :
    (∀ t i, Effect.providerDelete t i ∉ (s.sync fetch f).2) ∧
      (∀ p, Effect.settingsDelete p ∉ (s.sync fetch f).2) := by
  unfold Settings.sync
  split
  · simp
  · cases fetch s.id <;> simp

/-- C1: for every `Settings` entity, `sync(force=false)` returns immediately
with no storage access exactly when the entity has already been resolved;
when `force` is false but the status is still `Unsynchronized`, `sync` is
claimed to call `requestHandler.push(id)` rather than return early.  The
code disagrees: its guard compares the non-nullable status enum against the
null literal, so `sync(force=false)` returns early for EVERY status —
including `Unsynchronized`, even when storage holds a row for the id (no
`push` effect is issued and the entity is unchanged).  The default
`force = (status === Unsynchronized)` part of the claim does hold and is the
first conjunct below. -/
theorem C1_sync_force_false_never_fetches :
    (∀ (fetch : String → Option KeyedObject) (s : Settings),
        s.syncDefault fetch =
          s.sync fetch (decide (s.existenceStatus = SettingsExistenceStatus.Unsynchronized))) ∧
    (∀ (fetch : String → Option KeyedObject) (s : Settings), s.sync fetch false = (s, [])) ∧
    (s42.existenceStatus = SettingsExistenceStatus.Unsynchronized ∧
      fetch42 s42.id = some [("prefix", JsonValue.str "?")] ∧
      s42.sync fetch42 false = (s42, [])) :=
  ⟨fun _ _ => rfl, fun _ _ => rfl, rfl, rfl, rfl⟩

/-- C2: whenever `sync()` performs the fetch: a returned row sets the status
to `Exists`, patches the folder with the row, and emits `settingsSync` with
the mutated entity; no row sets the status to `NotExists`; and a freshly
constructed entity whose id is absent from storage ends its `sync()` with
status `NotExists` and every field still at its schema default. -/
theorem C2_sync_fetch_outcomes :
    (∀ (fetch : String → Option KeyedObject) (s : Settings) (row : KeyedObject),
        fetch s.id = some row →
        s.sync fetch true =
          ({ s with existenceStatus := SettingsExistenceStatus.Exists,
                    values := folderPatch s.values row },
           [Effect.push s.id,
            Effect.settingsSync
              { s with existenceStatus := SettingsExistenceStatus.Exists,
                       values := folderPatch s.values row }])) ∧
    (∀ (fetch : String → Option KeyedObject) (s : Settings),
        fetch s.id = none →
        s.sync fetch true =
          ({ s with existenceStatus := SettingsExistenceStatus.NotExists },
           [Effect.push s.id])) ∧
    (∀ (g : Gateway) (t i : String) (fetch : String → Option KeyedObject),
        fetch i = none →
        ((Settings.construct g t i).syncDefault fetch).1.existenceStatus =
            SettingsExistenceStatus.NotExists ∧
          ((Settings.construct g t i).syncDefault fetch).1.values = folderInit g.schema) := by
  refine ⟨sync_force_some, sync_force_none, fun g t i fetch h => ?_⟩
  rw [syncDefault_unsync fetch (Settings.construct g t i) rfl,
    sync_force_none fetch (Settings.construct g t i) h]
  exact ⟨rfl, rfl⟩

/-- Witness for C2 at a concrete input: the fresh entity `"42"` synced
against a storage holding `{prefix: "?"}` for it. -/
theorem C2_sync_fetch_outcomes_witness :
    s42.sync fetch42 true =
      ({ s42 with existenceStatus := SettingsExistenceStatus.Exists,
                  values := folderPatch s42.values [("prefix", JsonValue.str "?")] },
       [Effect.push s42.id,
        Effect.settingsSync
          { s42 with existenceStatus := SettingsExistenceStatus.Exists,
                     values := folderPatch s42.values [("prefix", JsonValue.str "?")] }]) :=
  C2_sync_fetch_outcomes.1 fetch42 s42 [("prefix", JsonValue.str "?")] rfl

/-- `sync()` with the defaulted `force` never changes `gateway`, `target`
or `id` either. -/
theorem syncDefault_preserves_static (fetch : String → Option KeyedObject) (s : Settings) :
    (s.syncDefault fetch).1.gateway = s.gateway ∧ (s.syncDefault fetch).1.id = s.id ∧
      (s.syncDefault fetch).1.target = s.target :=
  sync_preserves_static fetch s _

/-- The state an operation leaves behind: a `destroy` either leaves exactly
the state of its ensured `sync()`, or a state whose status is
`NotExists`. -/
theorem applyOp_destroy_cases (fetch : String → Option KeyedObject) (s : Settings) :
    applyOp fetch s SettingsOp.destroy = (s.syncDefault fetch).1 ∨
      (applyOp fetch s SettingsOp.destroy).existenceStatus =
        SettingsExistenceStatus.NotExists := by
  simp only [applyOp, Settings.destroy]
  by_cases hx : (s.syncDefault fetch).1.existenceStatus = SettingsExistenceStatus.Exists
  · rw [if_pos hx]
    by_cases hp : (s.syncDefault fetch).1.gateway.hasProvider = true
    · rw [if_pos hp]
      exact Or.inr rfl
    · rw [if_neg hp]
      exact Or.inl rfl
  · rw [if_neg hx]
    exact Or.inl rfl

/-- No single operation ever moves a resolved status back to
`Unsynchronized`. -/
theorem applyOp_no_unsync (fetch : String → Option KeyedObject) (s : Settings)
    (op : SettingsOp)
    (h : (applyOp fetch s op).existenceStatus = SettingsExistenceStatus.Unsynchronized) :
    s.existenceStatus = SettingsExistenceStatus.Unsynchronized := by
  cases op with
  | sync of =>
    cases of with
    | none => exact absurd h (syncDefault_status_resolved fetch s)
    | some f =>
      cases f with
      | false =>
        rw [show applyOp fetch s (SettingsOp.sync (some false)) = (s.sync fetch false).1 from rfl,
          sync_force_false_eq] at h
        exact h
      | true =>
        rw [show applyOp fetch s (SettingsOp.sync (some true)) = (s.sync fetch true).1 from rfl]
          at h
        rcases sync_force_true_status fetch s with h2 | h2 <;> rw [h] at h2 <;> simp at h2
  | destroy =>
    rcases applyOp_destroy_cases fetch s with hc | hc
    · rw [hc] at h
      exact absurd h (syncDefault_status_resolved fetch s)
    · rw [h] at hc
      simp at hc

/-- No sequence of operations ever moves a resolved status back to
`Unsynchronized`. -/
theorem applyOps_no_unsync (fetch : String → Option KeyedObject) (s : Settings)
    (ops : List SettingsOp)
    (h : (applyOps fetch s ops).existenceStatus = SettingsExistenceStatus.Unsynchronized) :
    s.existenceStatus = SettingsExistenceStatus.Unsynchronized := by
  induction ops generalizing s with
  | nil => exact h
  | cons op rest ih => exact applyOp_no_unsync fetch s op (ih (applyOp fetch s op) h)

/-- C4: every entity starts `Unsynchronized`; no sequence of `sync()` and
`destroy()` calls ever sets the status back to `Unsynchronized`; any status
change a `sync` makes is to `Exists` or `NotExists`; and a `destroy()` that
runs to completion always leaves `NotExists`. -/
theorem C4_status_never_returns_to_unsynchronized :
    (∀ (g : Gateway) (t i : String),
        (Settings.construct g t i).existenceStatus = SettingsExistenceStatus.Unsynchronized) ∧
    (∀ (fetch : String → Option KeyedObject) (s : Settings) (ops : List SettingsOp),
        (applyOps fetch s ops).existenceStatus = SettingsExistenceStatus.Unsynchronized →
          s.existenceStatus = SettingsExistenceStatus.Unsynchronized) ∧
    (∀ (fetch : String → Option KeyedObject) (s : Settings) (f : Bool),
        (s.sync fetch f).1.existenceStatus ≠ s.existenceStatus →
          (s.sync fetch f).1.existenceStatus = SettingsExistenceStatus.Exists ∨
            (s.sync fetch f).1.existenceStatus = SettingsExistenceStatus.NotExists) ∧
    (∀ (fetch : String → Option KeyedObject) (s : Settings) (r : Settings × List Effect),
        s.destroy fetch = Outcome.ok r →
          r.1.existenceStatus = SettingsExistenceStatus.NotExists) := by
  refine ⟨fun g t i => rfl, applyOps_no_unsync, fun fetch s f hne => ?_, fun fetch s r hok => ?_⟩
  · rcases sync_status_cases fetch s f with h | h | h
    · exact absurd h hne
    · exact Or.inl h
    · exact Or.inr h
  · have hsd := syncDefault_status_resolved fetch s
    simp only [Settings.destroy] at hok
    by_cases hx : (s.syncDefault fetch).1.existenceStatus = SettingsExistenceStatus.Exists
    · rw [if_pos hx] at hok
      by_cases hp : (s.syncDefault fetch).1.gateway.hasProvider = true
      · rw [if_pos hp] at hok
        injection hok with h1
        rw [← h1]
      · rw [if_neg hp] at hok
        injection hok
    · rw [if_neg hx] at hok
      injection hok with h1
      rw [← h1]
      cases hst : (s.syncDefault fetch).1.existenceStatus
      · exact absurd hst hsd
      · exact absurd hst hx
      · rfl

/-- Witness for C4 at a concrete input: the empty operation sequence on the
fresh entity `"42"`. -/
theorem C4_status_never_returns_to_unsynchronized_witness :
    s42.existenceStatus = SettingsExistenceStatus.Unsynchronized :=
  C4_status_never_returns_to_unsynchronized.2.1 fetchEmpty s42 [] rfl

/-- C5: a `destroy()` whose ensured sync resolves to `Exists` while the
gateway's provider is null throws the configuration error; the failing call
hands back exactly the post-sync state — the status is still `Exists`, the
values are whatever the sync left (not reset) — and its effect log is the
sync's own: it contains no `provider.delete` call and no delete event. -/
theorem C5_destroy_without_provider_throws (fetch : String → Option KeyedObject) (s : Settings)
    (hp : s.gateway.hasProvider = false)
    (hx : (s.syncDefault fetch).1.existenceStatus = SettingsExistenceStatus.Exists) :
    s.destroy fetch =
        Outcome.thrown "The provider was not available during the destroy operation."
          (s.syncDefault fetch) ∧
      (∀ t i, Effect.providerDelete t i ∉ (s.syncDefault fetch).2) ∧
      (∀ p, Effect.settingsDelete p ∉ (s.syncDefault fetch).2) := by
  obtain ⟨hg, hi, ht⟩ := syncDefault_preserves_static fetch s
  refine ⟨?_, (sync_effects_no_delete fetch s _).1, (sync_effects_no_delete fetch s _).2⟩
  simp only [Settings.destroy]
  rw [if_pos hx, hg, hp]
  simp

/-- Witness for C5 at a concrete input: the fresh entity `"42"` on the
provider-less gateway, with a backing row in storage. -/
theorem C5_destroy_without_provider_throws_witness :
    s42n.destroy fetch42 =
      Outcome.thrown "The provider was not available during the destroy operation."
        (s42n.syncDefault fetch42) :=
  (C5_destroy_without_provider_throws fetch42 s42n rfl rfl).1

/-- C6: a `destroy()` whose ensured sync resolves to `Exists` with an
available provider performs, in this order, `provider.delete(table, id)`,
the delete-event emission carrying the entity as it is at that moment, the
reset of every value to its schema default via `_init`, and the transition
to `NotExists`; the entity itself is handed back. -/
theorem C6_destroy_exists_deletes_in_order (fetch : String → Option KeyedObject) (s : Settings)
    (hp : s.gateway.hasProvider = true)
    (hx : (s.syncDefault fetch).1.existenceStatus = SettingsExistenceStatus.Exists) :
    s.destroy fetch =
      Outcome.ok
        ({ (s.syncDefault fetch).1 with
           values := folderInit s.gateway.schema
           existenceStatus := SettingsExistenceStatus.NotExists },
         (s.syncDefault fetch).2 ++
           [Effect.providerDelete s.gateway.name s.id,
            Effect.settingsDelete (s.syncDefault fetch).1]) := by
  obtain ⟨hg, hi, ht⟩ := syncDefault_preserves_static fetch s
  simp only [Settings.destroy]
  rw [if_pos hx, hg, hi, hp]
  simp

/-- Witness for C6 at a concrete input: the fresh entity `"42"` on the
provider-backed gateway, with a backing row in storage. -/
theorem C6_destroy_exists_deletes_in_order_witness :
    s42.destroy fetch42 =
      Outcome.ok
        ({ (s42.syncDefault fetch42).1 with
           values := folderInit s42.gateway.schema
           existenceStatus := SettingsExistenceStatus.NotExists },
         (s42.syncDefault fetch42).2 ++
           [Effect.providerDelete s42.gateway.name s42.id,
            Effect.settingsDelete (s42.syncDefault fetch42).1]) :=
  C6_destroy_exists_deletes_in_order fetch42 s42 rfl rfl

/-- C7: a `destroy()` whose ensured sync resolves to a status other than
`Exists` returns exactly the post-sync state and the sync's own effect log:
zero `provider.delete` calls, no delete event, values and status left as
the sync left them. -/
theorem C7_destroy_not_exists_is_sync_only (fetch : String → Option KeyedObject) (s : Settings)
    (hx : (s.syncDefault fetch).1.existenceStatus ≠ SettingsExistenceStatus.Exists) :
    s.destroy fetch = Outcome.ok (s.syncDefault fetch) ∧
      (∀ t i, Effect.providerDelete t i ∉ (s.syncDefault fetch).2) ∧
      (∀ p, Effect.settingsDelete p ∉ (s.syncDefault fetch).2) := by
  refine ⟨?_, (sync_effects_no_delete fetch s _).1, (sync_effects_no_delete fetch s _).2⟩
  simp only [Settings.destroy]
  rw [if_neg hx]

/-- Witness for C7 at a concrete input: the fresh entity `"42"` synced
against an empty storage. -/
theorem C7_destroy_not_exists_is_sync_only_witness :
    s42.destroy fetchEmpty = Outcome.ok (s42.syncDefault fetchEmpty) :=
  (C7_destroy_not_exists_is_sync_only fetchEmpty s42 (by decide)).1

/-! Helper lemmas about the deep-merge helpers behind `parseUpdateInput`. -/

/-- Merging a one-key source into the empty object just installs it. -/
theorem mergeFields_nil_single (k : String) (sv : JsonValue) :
    mergeFields [] [(k, sv)] = [(k, sv)] := by
  cases sv <;> simp [mergeFields, lookupKey, setKey]

/-- Merging a one-key source whose key is absent from the target appends it
and leaves every existing (sibling) key untouched. -/
theorem mergeFields_single_new (l : KeyedObject) (k : String) (sv : JsonValue)
    (h : lookupKey l k = none) (hany : l.any (fun e => e.1 == k) = false) :
    mergeFields l [(k, sv)] = l ++ [(k, sv)] := by
  cases sv <;> simp [mergeFields, setKey, h, hany]

/-- Along a one-branch nested spine, merging a later value over an earlier
one at the same path replaces it, whenever the later leaf is not itself a
plain object. -/
theorem mergeFields_makeNested_overwrite (ks : List String) (k : String)
    (v1 v2 : JsonValue) (h2 : v2.isObj = false) :
    mergeFields [(k, makeNested ks v1)] [(k, makeNested ks v2)] = [(k, makeNested ks v2)] := by
  induction ks generalizing k with
  | nil =>
    cases v2 with
    | obj l => simp [JsonValue.isObj] at h2
    | str a => simp [makeNested, mergeFields, lookupKey, setKey]
    | int a => simp [makeNested, mergeFields, lookupKey, setKey]
    | null => simp [makeNested, mergeFields, lookupKey, setKey]
  | cons k1 ks ih =>
    simp [makeNested, mergeFields, lookupKey, setKey, ih k1]

/-- C3: `parseUpdateInput` returns a plain mapping unchanged; a change
sequence is deep-merged into one nested object — changes at the sibling
paths `a.b` and `a.c` both end up under one `a` object, with neither leaf
displacing the other — and a later entry at the same path overwrites the
earlier one, both along an arbitrary nested spine (third conjunct, at the
merge level) and through `parseUpdateInput` itself (fourth conjunct). -/
theorem C3_parseUpdateInput_normalizes :
    (∀ m : KeyedObject, Provider.parseUpdateInput (UpdateInput.plain m) = m) ∧
    (∀ p1 p2 v1 v2 : JsonValue,
        Provider.parseUpdateInput (UpdateInput.results
          [⟨⟨"a.b"⟩, p1, v1⟩, ⟨⟨"a.c"⟩, p2, v2⟩]) =
          [("a", JsonValue.obj [("b", v1), ("c", v2)])]) ∧
    (∀ (ks : List String) (k : String) (v1 v2 : JsonValue), v2.isObj = false →
        mergeFields (mergeFields [] [(k, makeNested ks v1)]) [(k, makeNested ks v2)] =
          [(k, makeNested ks v2)]) ∧
    (∀ p1 p2 v1 v2 : JsonValue, v2.isObj = false →
        Provider.parseUpdateInput (UpdateInput.results
          [⟨⟨"a.b"⟩, p1, v1⟩, ⟨⟨"a.b"⟩, p2, v2⟩]) =
          Provider.parseUpdateInput (UpdateInput.results [⟨⟨"a.b"⟩, p2, v2⟩])) := by
  refine ⟨fun m => rfl, fun p1 p2 v1 v2 => ?_, fun ks k v1 v2 h2 => ?_,
    fun p1 p2 v1 v2 h2 => ?_⟩
  · simp [Provider.parseUpdateInput, makeObject, splitPath, splitSegsAux, makeNested,
      mergeFields, lookupKey, setKey, mergeFields_single_new]
  · rw [mergeFields_nil_single, mergeFields_makeNested_overwrite ks k v1 v2 h2]
  · simp [Provider.parseUpdateInput, makeObject, splitPath, splitSegsAux,
      mergeFields_nil_single, mergeFields_makeNested_overwrite _ _ _ _ h2]

/-- Witness for C3 at a concrete input: two changes at path `a.b` collapse
to the later one. -/
theorem C3_parseUpdateInput_normalizes_witness :
    Provider.parseUpdateInput (UpdateInput.results
      [⟨⟨"a.b"⟩, JsonValue.null, JsonValue.int 1⟩,
       ⟨⟨"a.b"⟩, JsonValue.null, JsonValue.int 2⟩]) =
      Provider.parseUpdateInput (UpdateInput.results
        [⟨⟨"a.b"⟩, JsonValue.null, JsonValue.int 2⟩]) :=
  C3_parseUpdateInput_normalizes.2.2.2 JsonValue.null JsonValue.null
    (JsonValue.int 1) (JsonValue.int 2) rfl

/-! Helper lemma about cloning. -/

/-- Patching the schema's defaults with a folder whose key list matches the
schema's (with unique keys) reproduces that folder exactly: this is what
`_patch(this.toJSON())` does inside `clone()`. -/
theorem folderPatch_init_self (schema values : List (String × JsonValue))
    (hkeys : values.map Prod.fst = schema.map Prod.fst)
    (hnodup : (schema.map Prod.fst).Nodup) :
    folderPatch (folderInit schema) values = values := by
  induction schema generalizing values with
  | nil =>
    simp only [List.map_nil, List.map_eq_nil_iff] at hkeys
    rw [hkeys]
    rfl
  | cons e es ih =>
    cases values with
    | nil => simp at hkeys
    | cons v vs =>
      simp only [List.map_cons, List.cons.injEq] at hkeys
      simp only [List.map_cons, List.nodup_cons] at hnodup
      have hv : lookupKey (v :: vs) e.1 = some v.2 := by
        unfold lookupKey
        rw [List.find?_cons_of_pos]
        simp [hkeys.1]
      show (match lookupKey (v :: vs) e.1 with
            | some w => (e.1, w)
            | none => e) ::
          es.map (fun x =>
            match lookupKey (v :: vs) x.1 with
            | some w => (x.1, w)
            | none => x) = v :: vs
      rw [hv]
      have htail : es.map (fun x =>
          match lookupKey (v :: vs) x.1 with
          | some w => (x.1, w)
          | none => x) =
          es.map (fun x =>
            match lookupKey vs x.1 with
            | some w => (x.1, w)
            | none => x) := by
        refine List.map_congr_left fun x hx => ?_
        have hxk : x.1 ≠ e.1 := by
          intro hh
          exact hnodup.1 (hh ▸ List.mem_map_of_mem Prod.fst hx)
        have hlk : lookupKey (v :: vs) x.1 = lookupKey vs x.1 := by
          unfold lookupKey
          rw [List.find?_cons_of_neg]
          simp [hkeys.1]
          exact fun hh => hxk hh.symm
        rw [hlk]
      rw [htail, ← hkeys.1]
      exact congrArg₂ (fun a b => a :: b) Prod.mk.eta (ih vs hkeys.2 hnodup.2)

/-- C8: `clone()` builds a new entity with the same `gateway`, `target` and
`id`, and — for any entity whose folder has the schema's shape (its key
list is the schema's, with unique schema paths) — the clone's `toJSON`
snapshot deep-equals the original's.  Mutating the clone leaves the
original untouched: in the pure-value embedding the pair
`mutateClone s data` holds the unchanged original next to the patched copy,
and the copy's values are exactly the original snapshot patched with
`data`. -/
theorem C8_clone_snapshot_deep_equal (s : Settings)
    (hshape : s.values.map Prod.fst = s.gateway.schema.map Prod.fst)
    (hnodup : (s.gateway.schema.map Prod.fst).Nodup) :
    (s.clone.gateway = s.gateway ∧ s.clone.target = s.target ∧ s.clone.id = s.id) ∧
      folderToJSON s.clone.values = folderToJSON s.values ∧
      (∀ data : KeyedObject,
        (mutateClone s data).1 = s ∧
          (mutateClone s data).2.values = folderPatch s.values data) := by
  have hv : s.clone.values = s.values := folderPatch_init_self _ _ hshape hnodup
  refine ⟨⟨rfl, rfl, rfl⟩, hv, fun data => ⟨rfl, ?_⟩⟩
  rw [show (mutateClone s data).2.values = folderPatch s.clone.values data from rfl, hv]

/-- Witness for C8 at a concrete input: the fresh entity `"42"`. -/
theorem C8_clone_snapshot_deep_equal_witness :
    folderToJSON s42.clone.values = folderToJSON s42.values :=
  (C8_clone_snapshot_deep_equal s42 rfl (by decide)).2.1

/-- C10: a clone is always `Unsynchronized`, whatever the original's status
was — the constructor run inside `clone()` resets the synchronization
state, and the `_patch` of the snapshot only copies the folder's values
(second conjunct), never the status. -/
theorem C10_clone_always_unsynchronized :
    ∀ s : Settings,
      s.clone.existenceStatus = SettingsExistenceStatus.Unsynchronized ∧
        s.clone.values = folderPatch (folderInit s.gateway.schema) (folderToJSON s.values) :=
  fun _ => ⟨rfl, rfl⟩

/-! Helper lemmas about the `RequestHandler` batch model. -/

/-- `find?` over the settlements of one entry finds a queued waiter and its
shared result. -/
theorem find_mapped_mem (l : List Nat) (r : Except String (Option KeyedObject)) (w : Nat)
    (hw : w ∈ l) :
    (l.map (fun w0 => (w0, r))).find? (fun p => p.1 == w) = some (w, r) := by
  induction l with
  | nil => cases hw
  | cons a as ih =>
    rw [List.map_cons]
    by_cases ha : (a == w) = true
    · have h1 : List.find? (fun p => p.1 == w) ((a, r) :: as.map (fun w0 => (w0, r)))
          = some (a, r) := List.find?_cons_of_pos _ ha
      rw [h1, eq_of_beq ha]
    · have h1 : List.find? (fun p => p.1 == w) ((a, r) :: as.map (fun w0 => (w0, r)))
          = List.find? (fun p => p.1 == w) (as.map (fun w0 => (w0, r))) :=
        List.find?_cons_of_neg _ ha
      rw [h1]
      refine ih ?_
      rcases List.mem_cons.mp hw with h | h
      · exact absurd (by simp [h]) ha
      · exact h

/-- `find?` over the settlements of one entry skips a waiter that never
joined it. -/
theorem find_mapped_not_mem (l : List Nat) (r : Except String (Option KeyedObject)) (w : Nat)
    (hw : w ∉ l) :
    (l.map (fun w0 => (w0, r))).find? (fun p => p.1 == w) = none := by
  induction l with
  | nil => rfl
  | cons a as ih =>
    rw [List.map_cons]
    have ha : ¬((a == w) = true) := by
      intro hh
      exact hw (eq_of_beq hh ▸ List.mem_cons_self a as)
    have h1 : List.find? (fun p => p.1 == w) ((a, r) :: as.map (fun w0 => (w0, r)))
        = List.find? (fun p => p.1 == w) (as.map (fun w0 => (w0, r))) :=
      List.find?_cons_of_neg _ ha
    rw [h1]
    exact ih fun h => hw (List.mem_cons_of_mem a h)

/-- In a dispatch of a queue with globally distinct waiters, a waiter
queued under entry `k` settles with the batch result for `k`. -/
theorem find_dispatch (l : List (String × List Nat)) (db : BatchResult) (k : String)
    (ws : List Nat) (w : Nat) (hmem : (k, ws) ∈ l) (hw : w ∈ ws)
    (hnd : (l.flatMap (fun e => e.2)).Nodup) :
    (l.flatMap (fun e => e.2.map (fun w0 => (w0, dbLookup db e.1)))).find?
        (fun p => p.1 == w) = some (w, dbLookup db k) := by
  induction l with
  | nil => cases hmem
  | cons e es ih =>
    rw [List.flatMap_cons, List.find?_append]
    rw [List.flatMap_cons, List.nodup_append] at hnd
    rcases List.mem_cons.mp hmem with hm | hm
    · have hk : e.1 = k := by rw [← hm]
      have hwe : w ∈ e.2 := by rw [← hm]; exact hw
      rw [find_mapped_mem e.2 (dbLookup db e.1) w hwe, hk]
      rfl
    · have hw2 : w ∈ es.flatMap (fun e0 => e0.2) := List.mem_flatMap.mpr ⟨(k, ws), hm, hw⟩
      have hnotin : w ∉ e.2 := fun hin => hnd.2.2 hin hw2
      rw [find_mapped_not_mem e.2 (dbLookup db e.1) w hnotin, Option.none_or]
      exact ih hm hnd.2.1

/-- Every waiter queued under entry `k` resolves with the batch result for
`k`. -/
theorem resultOf_entry (rh : RequestHandler) (db : BatchResult) (k : String) (ws : List Nat)
    (w : Nat) (hmem : (k, ws) ∈ rh.pending) (hw : w ∈ ws) (hnd : rh.allWaiters.Nodup) :
    rh.resultOf db w = some (dbLookup db k) := by
  unfold RequestHandler.resultOf RequestHandler.dispatch
  rw [find_dispatch rh.pending db k ws w hmem hw hnd]

/-- A `push` either leaves the batch's id list unchanged (the id was
already pending) or appends the one new id. -/
theorem push_batchIds (rh : RequestHandler) (id : String) (w : Nat) :
    (rh.push id w).batchIds = rh.batchIds ∨
      ((rh.push id w).batchIds = rh.batchIds ++ [id] ∧ id ∉ rh.batchIds) := by
  unfold RequestHandler.push RequestHandler.batchIds
  by_cases h : rh.pending.any (fun e => e.1 == id) = true
  · rw [if_pos h]
    left
    rw [List.map_map]
    refine List.map_congr_left fun e he => ?_
    by_cases hk : (e.1 == id) = true
    · simp [Function.comp, eq_of_beq hk]
    · have hne : e.1 ≠ id := fun hh => hk (by simp [hh])
      simp [Function.comp, hne]
  · rw [if_neg h]
    right
    constructor
    · simp
    · intro hmem
      obtain ⟨e, he, hfst⟩ := List.mem_map.mp hmem
      exact h (List.any_eq_true.mpr ⟨e, he, by simp [hfst]⟩)

/-- A `push` keeps the batch's ids distinct: at most one storage fetch per
id per batch. -/
theorem push_nodup (rh : RequestHandler) (id : String) (w : Nat)
    (hnd : rh.batchIds.Nodup) : (rh.push id w).batchIds.Nodup := by
  rcases push_batchIds rh id w with h | ⟨h, hnot⟩
  · rw [h]; exact hnd
  · rw [h, List.nodup_append]
    exact ⟨hnd, List.nodup_singleton id, by simpa using hnot⟩

/-- After a `push`, the pushed waiter sits in an entry keyed by its id. -/
theorem push_mem_entry (rh : RequestHandler) (id : String) (w : Nat) :
    ∃ ws, (id, ws) ∈ (rh.push id w).pending ∧ w ∈ ws := by
  unfold RequestHandler.push
  by_cases h : rh.pending.any (fun e => e.1 == id) = true
  · rw [if_pos h]
    obtain ⟨e, he, hbeq⟩ := List.any_eq_true.mp h
    have hk : e.1 = id := eq_of_beq hbeq
    refine ⟨e.2 ++ [w], ?_, by simp⟩
    have himg : (fun e0 => if e0.1 == id then (e0.1, e0.2 ++ [w]) else e0) e
        = (id, e.2 ++ [w]) := by simp [hbeq, hk]
    exact himg ▸ List.mem_map_of_mem _ he
  · rw [if_neg h]
    exact ⟨[w], by simp, by simp⟩

/-- A `push` never evicts other queued waiters: an existing entry keeps all
its waiters (and keeps its key). -/
theorem push_mem_preserved (rh : RequestHandler) (id id0 : String) (w : Nat)
    (ws : List Nat) (hmem : (id0, ws) ∈ rh.pending) :
    ∃ ws1, (id0, ws1) ∈ (rh.push id w).pending ∧ ∀ x ∈ ws, x ∈ ws1 := by
  unfold RequestHandler.push
  by_cases h : rh.pending.any (fun e => e.1 == id) = true
  · rw [if_pos h]
    by_cases hk : (id0 == id) = true
    · refine ⟨ws ++ [w], ?_, fun x hx => by simp [hx]⟩
      have himg : (fun e0 => if e0.1 == id then (e0.1, e0.2 ++ [w]) else e0) (id0, ws)
          = (id0, ws ++ [w]) := by simp [hk]
      exact himg ▸ List.mem_map_of_mem _ hmem
    · refine ⟨ws, ?_, fun x hx => hx⟩
      have himg : (fun e0 => if e0.1 == id then (e0.1, e0.2 ++ [w]) else e0) (id0, ws)
          = (id0, ws) := by simp [hk]
      exact himg ▸ List.mem_map_of_mem _ hmem
  · rw [if_neg h]
    exact ⟨ws, List.mem_append_left _ hmem, fun x hx => hx⟩

/-- In an association list with distinct keys, one key holds one value. -/
theorem assoc_nodup_eq {α β : Type} (l : List (α × β)) (hnd : (l.map Prod.fst).Nodup)
    {k : α} {a b : β} (ha : (k, a) ∈ l) (hb : (k, b) ∈ l) : a = b := by
  induction l with
  | nil => cases ha
  | cons e es ih =>
    simp only [List.map_cons, List.nodup_cons] at hnd
    rcases List.mem_cons.mp ha with ha1 | ha1 <;> rcases List.mem_cons.mp hb with hb1 | hb1
    · rw [← hb1] at ha1
      exact congrArg Prod.snd ha1
    · exfalso
      refine hnd.1 ?_
      have hke : e.1 = k := by rw [← ha1]
      exact hke ▸ List.mem_map_of_mem Prod.fst hb1
    · exfalso
      refine hnd.1 ?_
      have hke : e.1 = k := by rw [← hb1]
      exact hke ▸ List.mem_map_of_mem Prod.fst ha1
    · exact ih hnd.2 ha1 hb1

/-- C9: two `push` calls for the same id issued before the batch is
dispatched share one storage fetch — the id occurs exactly once in the
single `getAll` argument list the dispatch issues — and both waiters
resolve with the same result: the batch outcome for that id, a shared row,
absence, or the shared batch failure. -/
theorem C9_same_id_pushes_share_one_fetch (rh : RequestHandler) (id : String)
    (w1 w2 : Nat) (db : BatchResult)
    (hnd : rh.batchIds.Nodup)
    (hw : (((rh.push id w1).push id w2).allWaiters).Nodup) :
    ((rh.push id w1).push id w2).batchIds.count id = 1 ∧
      ((rh.push id w1).push id w2).resultOf db w1 = some (dbLookup db id) ∧
      ((rh.push id w1).push id w2).resultOf db w2 = some (dbLookup db id) := by
  obtain ⟨ws1, hm1, hw1in⟩ := push_mem_entry rh id w1
  obtain ⟨ws1b, hm1b, hsub⟩ := push_mem_preserved (rh.push id w1) id id w2 ws1 hm1
  obtain ⟨ws2, hm2, hw2in⟩ := push_mem_entry (rh.push id w1) id w2
  have hnd2 : (((rh.push id w1).push id w2).batchIds).Nodup :=
    push_nodup _ id w2 (push_nodup rh id w1 hnd)
  have hws : ws1b = ws2 := assoc_nodup_eq _ hnd2 hm1b hm2
  have hmemid : id ∈ ((rh.push id w1).push id w2).batchIds :=
    List.mem_map.mpr ⟨(id, ws2), hm2, rfl⟩
  refine ⟨List.count_eq_one_of_mem hnd2 hmemid, ?_, ?_⟩
  · exact resultOf_entry _ db id ws1b w1 hm1b (hsub w1 hw1in) hw
  · exact resultOf_entry _ db id ws2 w2 hm2 hw2in hw

/-- Witness for C9 at a concrete input: two pushes for id `"a"` on an empty
batch, dispatched against a successful batch result. -/
theorem C9_same_id_pushes_share_one_fetch_witness :
    (((RequestHandler.mk []).push "a" 0).push "a" 1).resultOf dbOk 0 =
      some (dbLookup dbOk "a") :=
  (C9_same_id_pushes_share_one_fetch (RequestHandler.mk []) "a" 0 1 dbOk
    (by decide) (by decide)).2.1

end SettingsGateway
